import Mathlib

/-!
Shallow embedding of the restaurant-management data-access layer
(`js/menu.js`, `js/addon.js`): the catalog services (`MenuService`,
`AddonService`) and the order lifecycle service (`OrdersService`),
modelled over an explicit row store.

The remote row store is modelled as a record of row lists, one per table,
plus a fresh-id counter standing for the store's id generation on insert.
Each supabase builder chain is translated call-for-call:
  - `.select().eq(col, v)`          becomes `List.filter`
  - `.select().eq(col, v).single()` becomes `selectSingle` of the filter
    (zero rows yields a not-found error, several rows a multiple-rows error,
    which is how PostgREST's `.single()` behaves)
  - `.delete().eq(col, v)`          becomes `List.filter` with the negation
  - `.update(u).eq(col, v)`         becomes `List.map` of a conditional update
  - `.insert(rows)`                 appends rows, assigning fresh ids
  - `.order(col)`                   becomes a stable insertion sort on the column
Fallible results are `Except Err`.  Where a claim is about a forced store
failure (the order-item batch insert, the per-variant add-on-group
resolution), the corresponding call takes an explicit injected-failure
parameter that stands for the store returning an error object; `none` /
`false` is the fault-free run.  Multi-call operations also return the list
of store calls they issued (`DbEv`), so phase ordering is visible.
-/

/-- Errors surfaced by the services.  `notFound` models PostgREST's
zero-rows-for-`.single()` error, `multipleRows` its several-rows error,
`storeErr` an arbitrary error object returned by the row store and rethrown
by the service.  `orderCreationIncomplete` is the distinct
"PartialOrderCreation / PartialWriteFailure referencing the persisted order
id" error that the specification describes for `createOrder`; it is part of
the error vocabulary so that statements can ask whether the code ever
produces it. -/
inductive Err where
  | notFound : Err
  | multipleRows : Err
  | storeErr : String → Err
  | orderCreationIncomplete : Nat → Err
deriving DecidableEq, Repr

deriving instance DecidableEq for Except

/-- `.single()` applied to the rows matching a filter: exactly one row is
returned, zero rows is an error, several rows is an error. -/
def selectSingle {α : Type} : List α → Except Err α
  | [] => .error .notFound
  | [a] => .ok a
  | _ :: _ :: _ => .error .multipleRows

/-- Row of the `categories` table. -/
structure Category where
  id : Nat
  restaurant_id : Nat
  name : String
  display_order : Nat
deriving DecidableEq, Repr

/-- Row of the `menu_items` table. -/
structure MenuItem where
  id : Nat
  category_id : Nat
  name : String
  price : Int
  is_available : Bool
  created_at : Nat
deriving DecidableEq, Repr

/-- Row of the `menu_item_variants` table.  `addon_groups` is the JSON
column holding the denormalized list of add-on-group ids (a null column is
read back as the empty list, matching `data.addon_groups || []`). -/
structure Variant where
  id : Nat
  menu_item_id : Nat
  name : String
  additional_price : Int
  image_url : String
  display_order : Nat
  addon_groups : List Nat
  user_id : Option Nat
  updated_at : String
deriving DecidableEq, Repr

/-- Row of the `addon_groups` table. -/
structure AddonGroup where
  id : Nat
  restaurant_id : Nat
  name : String
deriving DecidableEq, Repr

/-- Row of the `addons` table. -/
structure Addon where
  id : Nat
  addon_group_id : Nat
  name : String
  price : Int
deriving DecidableEq, Repr

/-- Row of the `orders` table. -/
structure Order where
  id : Nat
  restaurant_id : Nat
  table_id : Option Nat
  order_type : String
  customer_notes : String
  status : String
  total_amount : Int
  order_number : String
deriving DecidableEq, Repr

/-- Row of the `order_items` table. -/
structure OrderItem where
  id : Nat
  order_id : Nat
  menu_item_id : Nat
  quantity : Nat
  item_price : Int
  special_instructions : String
deriving DecidableEq, Repr

/-- Row of the `order_item_addons` table. -/
structure OrderItemAddon where
  id : Nat
  order_item_id : Nat
  addon_name : String
  addon_price : Int
  quantity : Nat
deriving DecidableEq, Repr

/-- The row store: one list of rows per table, plus the id counter the
store uses to assign ids to inserted rows. -/
structure Store where
  categories : List Category
  menu_items : List MenuItem
  menu_item_variants : List Variant
  addon_groups : List AddonGroup
  addons : List Addon
  orders : List Order
  order_items : List OrderItem
  order_item_addons : List OrderItemAddon
  nextId : Nat
deriving DecidableEq, Repr

/-- Store calls issued by the multi-call operations, in issue order. -/
inductive DbEv where
  | fetchOrder : Nat → DbEv
  | fetchOrderItems : Nat → DbEv
  | deleteOrderItemAddons : List Nat → DbEv
  | deleteOrderItems : Nat → DbEv
  | deleteOrderRow : Nat → DbEv
  | deleteAddonsOfGroup : Nat → DbEv
  | deleteGroupRow : Nat → DbEv
  | deleteVariantsOfItem : Nat → DbEv
  | insertVariantRows : List Variant → DbEv
deriving DecidableEq, Repr

/-- JavaScript's `list.map((x, index) => f(index, x))`. -/
def mapWithIndex {α β : Type} (f : Nat → α → β) : Nat → List α → List β
  | _, [] => []
  | i, a :: as => f i a :: mapWithIndex f (i + 1) as

/-- One step of the stable insertion sort modelling `.order(col)`. -/
def insertSorted {α : Type} (key : α → Nat) (a : α) : List α → List α
  | [] => [a]
  | b :: bs => if key a ≤ key b then a :: b :: bs else b :: insertSorted key a bs

/-- `.order(col, ascending)`: stable sort of the selected rows on one
column. -/
def sortByKey {α : Type} (key : α → Nat) : List α → List α
  | [] => []
  | a :: as => insertSorted key a (sortByKey key as)

/-- `.order(col, descending)`, via the reversed key comparison. -/
def sortByKeyDesc {α : Type} (key : α → Nat) (l : List α) : List α :=
  sortByKey (fun a => l.foldr (fun b m => max (key b) m) 0 - key a) l

/-- Boolean check that a list is weakly increasing on a key. -/
def isSortedByKey {α : Type} (key : α → Nat) : List α → Bool
  | [] => true
  | [_] => true
  | a :: b :: rest => decide (key a ≤ key b) && isSortedByKey key (b :: rest)

/-- The `{addon_group_id}` records returned by
`MenuService.getVariantAddonGroups` ("return in the same format as the
other method for compatibility"). -/
structure AddonGroupRef where
  addon_group_id : Nat
deriving DecidableEq, Repr

namespace MenuService

/-- `MenuService.deleteCategory`: a single `.delete().eq('id', categoryId)`
on the `categories` table; no other table is touched. -/
def deleteCategory (s : Store) (categoryId : Nat) : Store :=
  { s with categories := s.categories.filter (fun c => c.id != categoryId) }

/-- `MenuService.getVariantAddonGroups` with an injected per-variant
failure oracle (`faults v = true` means the store call for variant `v`
returns an error, which the service rethrows).  Fault-free, it selects the
variant row's `addon_groups` JSON column with `.single()` and wraps each id
as `{addon_group_id}`. -/
def getVariantAddonGroupsF (faults : Nat → Bool) (s : Store) (variantId : Nat) :
    Except Err (List AddonGroupRef) :=
  if faults variantId then .error (.storeErr "injected") else
  match selectSingle (s.menu_item_variants.filter (fun v => v.id == variantId)) with
  | .error e => .error e
  | .ok row => .ok (row.addon_groups.map (fun groupId => ⟨groupId⟩))

/-- `MenuService.getVariantAddonGroups`, fault-free run. -/
def getVariantAddonGroups (s : Store) (variantId : Nat) :
    Except Err (List AddonGroupRef) :=
  getVariantAddonGroupsF (fun _ => false) s variantId

/-- The per-variant hydration step shared by `getMenuItems` and
`getMenuItemVariants`: `variant.addon_groups =
variantAddonGroups.map(group => group.addon_group_id)`, with the
surrounding try/catch that logs a failure and substitutes `[]`. -/
def hydrateVariant (faults : Nat → Bool) (s : Store) (v : Variant) : Variant :=
  match getVariantAddonGroupsF faults s v.id with
  | .ok refs => { v with addon_groups := refs.map (fun r => r.addon_group_id) }
  | .error _ => { v with addon_groups := [] }

/-- `MenuService.getMenuItemVariants` with the injected failure oracle:
select the item's variant rows ordered ascending by `display_order`, then
hydrate each variant's `addon_groups` (per-variant failures caught and
replaced by `[]`). -/
def getMenuItemVariantsF (faults : Nat → Bool) (s : Store) (menuItemId : Nat) :
    Except Err (List Variant) :=
  let variants := sortByKey (fun v => v.display_order)
    (s.menu_item_variants.filter (fun v => v.menu_item_id == menuItemId))
  .ok (variants.map (hydrateVariant faults s))

/-- `MenuService.getMenuItemVariants`, fault-free run. -/
def getMenuItemVariants (s : Store) (menuItemId : Nat) : Except Err (List Variant) :=
  getMenuItemVariantsF (fun _ => false) s menuItemId

/-- The loop body of `MenuService.getMenuItems`: for each item fetch its
variants via `getMenuItemVariants` (an error there aborts the whole call),
then re-hydrate each variant's add-on groups in place (the outer loop at
lines 90-99, each step guarded by its own try/catch). -/
def hydrateItems (faults : Nat → Bool) (s : Store) :
    List MenuItem → Except Err (List (MenuItem × List Variant))
  | [] => .ok []
  | it :: rest =>
    match getMenuItemVariantsF faults s it.id with
    | .error e => .error e
    | .ok variants =>
      let variants2 := variants.map (hydrateVariant faults s)
      match hydrateItems faults s rest with
      | .error e => .error e
      | .ok rest2 => .ok ((it, variants2) :: rest2)

/-- `MenuService.getMenuItems` with the injected failure oracle: select the
category's items ordered by `created_at` descending, then hydrate each item
with its variants and each variant with its add-on-group ids. -/
def getMenuItems (faults : Nat → Bool) (s : Store) (categoryId : Nat) :
    Except Err (List (MenuItem × List Variant)) :=
  hydrateItems faults s (sortByKeyDesc (fun it => it.created_at)
    (s.menu_items.filter (fun it => it.category_id == categoryId)))

/-- The caller-supplied variant data for `saveMenuItemVariants` (name,
price delta, image). -/
structure VariantSpec where
  name : String
  additional_price : Int
  image_url : String
deriving DecidableEq, Repr

/-- The rows built by `saveMenuItemVariants`'s
`variants.map((variant, index) => ...)`: `display_order` is the list
position, `user_id` the current user, and the unlisted columns take the
store defaults (ids from the id counter, `addon_groups` null read back as
`[]`). -/
def variantRows (menuItemId : Nat) (userId : Option Nat) (baseId : Nat)
    (variants : List VariantSpec) : List Variant :=
  mapWithIndex (fun index v =>
    { id := baseId + index
      menu_item_id := menuItemId
      name := v.name
      additional_price := v.additional_price
      image_url := v.image_url
      display_order := index
      addon_groups := []
      user_id := userId
      updated_at := "" }) 0 variants

/-- `MenuService.saveMenuItemVariants`: read the current user id, delete
every existing variant row of the item, then (when the new list is
non-empty) insert the full new list with `display_order` set to list
position; returns `true`. -/
def saveMenuItemVariants (s : Store) (menuItemId : Nat) (userId : Option Nat)
    (variants : List VariantSpec) : List DbEv × Store × Except Err Bool :=
  let s1 := { s with menu_item_variants :=
    s.menu_item_variants.filter (fun v => v.menu_item_id != menuItemId) }
  if variants.length > 0 then
    let rows := variantRows menuItemId userId s1.nextId variants
    ([.deleteVariantsOfItem menuItemId, .insertVariantRows rows],
     { s1 with menu_item_variants := s1.menu_item_variants ++ rows,
               nextId := s1.nextId + variants.length },
     .ok true)
  else
    ([.deleteVariantsOfItem menuItemId], s1, .ok true)

/-- `MenuService.updateVariantAddonGroups`: one
`.update({addon_groups, updated_at}).eq('id', variantId)` call on
`menu_item_variants` (`now` stands for `new Date().toISOString()`); a
non-matching id updates nothing and raises no error. -/
def updateVariantAddonGroups (s : Store) (variantId : Nat)
    (addonGroupIds : List Nat) (now : String) : Store :=
  { s with menu_item_variants := s.menu_item_variants.map (fun v =>
      if v.id == variantId then
        { v with addon_groups := addonGroupIds, updated_at := now }
      else v) }

end MenuService

namespace AddonService

/-- `AddonService.deleteAddonGroup`: first `.delete().eq('addon_group_id',
groupId)` on `addons`, then `.delete().eq('id', groupId)` on
`addon_groups`.  The intermediate store after the first call is exposed by
`deleteAddonGroupPhase1`. -/
def deleteAddonGroupPhase1 (s : Store) (groupId : Nat) : Store :=
  { s with addons := s.addons.filter (fun a => a.addon_group_id != groupId) }

def deleteAddonGroup (s : Store) (groupId : Nat) : List DbEv × Store :=
  let s1 := deleteAddonGroupPhase1 s groupId
  ([.deleteAddonsOfGroup groupId, .deleteGroupRow groupId],
   { s1 with addon_groups := s1.addon_groups.filter (fun g => g.id != groupId) })

end AddonService

namespace OrdersService

/-- One entry of `orderData.order_items` as consumed by
`OrdersService.createOrder`. -/
structure OrderItemSpec where
  menu_item_id : Nat
  quantity : Nat
  item_price : Int
  special_instructions : String
deriving DecidableEq, Repr

/-- The `orderData` argument of `OrdersService.createOrder`;
`order_items` is optional because the code guards it with
`orderData.order_items && orderData.order_items.length > 0`. -/
structure OrderData where
  restaurant_id : Nat
  table_id : Option Nat
  order_type : String
  customer_notes : String
  status : String
  total_amount : Int
  order_items : Option (List OrderItemSpec)
deriving DecidableEq, Repr

/-- `OrdersService.createOrder`: insert the order row first (with the
time-derived human-facing `orderNumber`), then, when `order_items` is
present and non-empty, batch-insert the order-item rows referencing the
returned order id.  `orderFail` / `itemsFail` inject a store error object
for the respective insert (`none` is the fault-free run); a failing insert
writes nothing, and the service rethrows the store's error object as-is.
No compensation: a failed item insert leaves the order row in place. -/
def createOrder (s : Store) (orderData : OrderData) (orderNumber : String)
    (orderFail itemsFail : Option String) : Store × Except Err Order :=
  match orderFail with
  | some msg => (s, .error (.storeErr msg))
  | none =>
    let order : Order :=
      { id := s.nextId
        restaurant_id := orderData.restaurant_id
        table_id := orderData.table_id
        order_type := orderData.order_type
        customer_notes := orderData.customer_notes
        status := orderData.status
        total_amount := orderData.total_amount
        order_number := orderNumber }
    let s1 := { s with orders := s.orders ++ [order], nextId := s.nextId + 1 }
    match orderData.order_items with
    | none => (s1, .ok order)
    | some items =>
      if items.length > 0 then
        match itemsFail with
        | some msg => (s1, .error (.storeErr msg))
        | none =>
          let rows := mapWithIndex (fun index it =>
            { id := s1.nextId + index
              order_id := order.id
              menu_item_id := it.menu_item_id
              quantity := it.quantity
              item_price := it.item_price
              special_instructions := it.special_instructions : OrderItem }) 0 items
          ({ s1 with order_items := s1.order_items ++ rows,
                     nextId := s1.nextId + items.length },
           .ok order)
      else (s1, .ok order)

/-- `OrdersService.updateOrderStatus`: one chained
`.update({status}).eq('id', orderId).select().single()` call; the update
applies to every matching row and `.single()` then demands exactly one
updated row. -/
def updateOrderStatus (s : Store) (orderId : Nat) (status : String) :
    Store × Except Err Order :=
  let orders1 := s.orders.map (fun o =>
    if o.id == orderId then { o with status := status } else o)
  ({ s with orders := orders1 },
   selectSingle (orders1.filter (fun o => o.id == orderId)))

/-- `OrdersService.deleteOrder`: fetch the order with `.single()` (throwing
the fetch error when absent), fetch the ids of the order's `order_items`
rows, and only when that list is non-empty delete the `order_item_addons`
rows `.in('order_item_id', ids)` and then the `order_items` rows; finally
delete the order row.  Returns the issued store calls, the resulting store
(partial on failure, nothing rolled back), and the result
`{success, deletedOrder}` reduced to the fetched order. -/
def deleteOrder (s : Store) (orderId : Nat) :
    List DbEv × Store × Except Err Order :=
  match selectSingle (s.orders.filter (fun o => o.id == orderId)) with
  | .error e => ([.fetchOrder orderId], s, .error e)
  | .ok order =>
    let orderItems := s.order_items.filter (fun it => it.order_id == orderId)
    let orderItemIds := orderItems.map (fun it => it.id)
    let (evs, s1) :=
      if orderItems.length > 0 then
        ([DbEv.deleteOrderItemAddons orderItemIds, DbEv.deleteOrderItems orderId],
         { s with
            order_item_addons := s.order_item_addons.filter
              (fun a => !(orderItemIds.contains a.order_item_id)),
            order_items := s.order_items.filter (fun it => it.order_id != orderId) })
      else ([], s)
    ([DbEv.fetchOrder orderId, DbEv.fetchOrderItems orderId] ++ evs
       ++ [DbEv.deleteOrderRow orderId],
     { s1 with orders := s1.orders.filter (fun o => o.id != orderId) },
     .ok order)

end OrdersService

/-! ### A concrete populated store used to evaluate the services -/

/-- A small restaurant catalog with one order: two categories, one item
with two variants, two add-on groups of which group 7 owns three add-ons,
and one order owning two order items of which the first carries one
order-item add-on. -/
def storeFix : Store :=
  { categories := [⟨1, 1, "Mains", 0⟩, ⟨2, 1, "Drinks", 1⟩]
    menu_items := [⟨3, 1, "Burger", 10, true, 100⟩]
    menu_item_variants :=
      [⟨4, 3, "Large", 2, "", 0, [7], none, ""⟩,
       ⟨5, 3, "Small", 0, "", 1, [7, 8], none, ""⟩]
    addon_groups := [⟨7, 1, "Sauces"⟩, ⟨8, 1, "Toppings"⟩]
    addons :=
      [⟨12, 7, "Ketchup", 1⟩, ⟨13, 7, "Mayo", 1⟩, ⟨14, 7, "BBQ", 1⟩,
       ⟨15, 8, "Cheese", 2⟩]
    orders := [⟨30, 1, some 2, "dine_in", "", "completed", 25, "ORD123"⟩]
    order_items := [⟨31, 30, 3, 1, 10, ""⟩, ⟨32, 30, 3, 1, 10, ""⟩]
    order_item_addons := [⟨33, 31, "Ketchup", 1, 1⟩]
    nextId := 40 }

/-- Order data with one line item, used to drive `createOrder`. -/
def orderDataOneItem : OrdersService.OrderData :=
  { restaurant_id := 1
    table_id := some 2
    order_type := "dine_in"
    customer_notes := ""
    status := "pending"
    total_amount := 10
    order_items := some [⟨3, 1, 10, ""⟩] }

/-- Order data whose `order_items` list is present but empty. -/
def orderDataEmptyItems : OrdersService.OrderData :=
  { orderDataOneItem with order_items := some [] }

/-- Order data with no `order_items` field at all. -/
def orderDataNoItems : OrdersService.OrderData :=
  { orderDataOneItem with order_items := none }

/-! ### General lemmas about the store-call building blocks -/

theorem length_filter_add_length_filter_not {α : Type} (p : α → Bool) (l : List α) :
    (l.filter p).length + (l.filter (fun a => !p a)).length = l.length := by
  induction l with
  | nil => rfl
  | cons a as ih =>
    rw [List.filter_cons, List.filter_cons]
    cases hpa : p a
    · rw [if_neg (by simp), if_pos (by simp)]
      simp only [List.length_cons]
      omega
    · rw [if_pos rfl, if_neg (by simp)]
      simp only [List.length_cons]
      omega

theorem map_if_eq_self {α : Type} {p : α → Bool} {f : α → α} {l : List α}
    (h : ∀ a ∈ l, p a = false) :
    (l.map fun a => if p a then f a else a) = l := by
  induction l with
  | nil => rfl
  | cons a as ih =>
    have ha := h a (List.mem_cons_self a as)
    rw [List.map_cons, if_neg (by simp [ha])]
    exact congrArg (a :: ·) (ih fun b hb => h b (List.mem_cons_of_mem a hb))

theorem filter_map_comm {α : Type} {f : α → α} {p : α → Bool}
    (h : ∀ a, p (f a) = p a) (l : List α) :
    (l.map f).filter p = (l.filter p).map f := by
  induction l with
  | nil => rfl
  | cons a as ih =>
    by_cases ha : p a = true
    · simp [List.filter_cons, h, ha, ih]
    · simp only [Bool.not_eq_true] at ha
      simp [List.filter_cons, h, ha, ih]

theorem mem_insertSorted {α : Type} (key : α → Nat) (a b : α) (l : List α) :
    b ∈ insertSorted key a l ↔ b = a ∨ b ∈ l := by
  induction l with
  | nil => simp [insertSorted]
  | cons c cs ih =>
    by_cases h : key a ≤ key c
    · simp [insertSorted, h]
    · simp [insertSorted, h, ih]
      tauto

theorem mem_sortByKey {α : Type} (key : α → Nat) (a : α) (l : List α) :
    a ∈ sortByKey key l ↔ a ∈ l := by
  induction l with
  | nil => simp [sortByKey]
  | cons c cs ih => simp [sortByKey, mem_insertSorted, ih]

theorem sortByKey_eq_self {α : Type} {key : α → Nat} {l : List α}
    (h : isSortedByKey key l = true) : sortByKey key l = l := by
  induction l with
  | nil => rfl
  | cons a as ih =>
    cases as with
    | nil => rfl
    | cons b bs =>
      simp only [isSortedByKey, Bool.and_eq_true, decide_eq_true_eq] at h
      have hrest := ih h.2
      simp only [sortByKey] at hrest ⊢
      rw [hrest]
      simp [insertSorted, h.1]

theorem isSortedByKey_of_map_range' {α : Type} {key : α → Nat} :
    ∀ {l : List α} {a n : Nat}, l.map key = List.range' a n →
      isSortedByKey key l = true := by
  intro l
  induction l with
  | nil => intro a n _; rfl
  | cons x xs ih =>
    intro a n h
    cases n with
    | zero => simp at h
    | succ m =>
      rw [List.range'_succ] at h
      simp only [List.map_cons, List.cons.injEq] at h
      cases xs with
      | nil => simp [isSortedByKey]
      | cons y ys =>
        have htail := ih h.2
        cases m with
        | zero => simp at h
        | succ k =>
          rw [List.range'_succ] at h
          simp only [List.map_cons, List.cons.injEq] at h
          simp only [isSortedByKey, htail, Bool.and_true, decide_eq_true_eq,
            h.1, h.2.1]
          omega

theorem map_key_mapWithIndex {α β : Type} {f : Nat → α → β} {key : β → Nat}
    {c : Nat} (h : ∀ j a, key (f j a) = c + j) :
    ∀ (i : Nat) (l : List α),
      (mapWithIndex f i l).map key = List.range' (c + i) l.length := by
  intro i l
  induction l generalizing i with
  | nil => rfl
  | cons a as ih =>
    simp only [mapWithIndex, List.map_cons, List.length_cons, List.range'_succ, h]
    have := ih (i + 1)
    rw [this]
    ring_nf

theorem length_mapWithIndex {α β : Type} (f : Nat → α → β) :
    ∀ (i : Nat) (l : List α), (mapWithIndex f i l).length = l.length := by
  intro i l
  induction l generalizing i with
  | nil => rfl
  | cons a as ih => simp [mapWithIndex, ih]

theorem mapWithIndex_forall {α β : Type} {f : Nat → α → β} {P : β → Prop}
    (h : ∀ j a, P (f j a)) :
    ∀ (i : Nat) (l : List α) (b : β), b ∈ mapWithIndex f i l → P b := by
  intro i l
  induction l generalizing i with
  | nil => intro b hb; simp [mapWithIndex] at hb
  | cons a as ih =>
    intro b hb
    simp only [mapWithIndex, List.mem_cons] at hb
    rcases hb with hb | hb
    · exact hb ▸ h i a
    · exact ih (i + 1) b hb

theorem filter_key_of_nodup {α : Type} {key : α → Nat} :
    ∀ {l : List α}, (l.map key).Nodup → ∀ {a : α}, a ∈ l →
      l.filter (fun b => key b == key a) = [a] := by
  intro l
  induction l with
  | nil => intro _ a ha; simp at ha
  | cons c cs ih =>
    intro hnd a ha
    simp only [List.map_cons, List.nodup_cons] at hnd
    rcases List.mem_cons.mp ha with rfl | hmem
    · have hrest : cs.filter (fun b => key b == key a) = [] := by
        refine List.filter_eq_nil_iff.mpr fun b hb => ?_
        simp only [beq_iff_eq]
        intro hcontra
        exact hnd.1 (hcontra ▸ List.mem_map_of_mem key hb)
      simp [List.filter_cons, hrest]
    · have hne : key c ≠ key a := by
        intro hcontra
        exact hnd.1 (hcontra ▸ List.mem_map_of_mem key hmem)
      simp [List.filter_cons, hne, ih hnd.2 hmem]

/-! ### C9: category deletion touches only the category row -/

/-- C9: for every category id, `deleteCategory` removes only the category
row: every other table — in particular `menu_items`, including the items
whose `category_id` equals the deleted id — is left unchanged, so such
items become orphaned rather than deleted or reassigned; every category
with a different id survives, and no category with the deleted id
remains. -/
theorem deleteCategory_only_category (s : Store) (categoryId : Nat) :
    (MenuService.deleteCategory s categoryId).menu_items = s.menu_items ∧
    (MenuService.deleteCategory s categoryId).menu_item_variants = s.menu_item_variants ∧
    (MenuService.deleteCategory s categoryId).addon_groups = s.addon_groups ∧
    (MenuService.deleteCategory s categoryId).addons = s.addons ∧
    (MenuService.deleteCategory s categoryId).orders = s.orders ∧
    (MenuService.deleteCategory s categoryId).order_items = s.order_items ∧
    (MenuService.deleteCategory s categoryId).order_item_addons = s.order_item_addons ∧
    (MenuService.deleteCategory s categoryId).categories.filter
      (fun c => c.id == categoryId) = [] ∧
    (∀ c ∈ s.categories, c.id ≠ categoryId →
      c ∈ (MenuService.deleteCategory s categoryId).categories) ∧
    (MenuService.deleteCategory s categoryId).menu_items.filter
        (fun m => m.category_id == categoryId) =
      s.menu_items.filter (fun m => m.category_id == categoryId) := by
  refine ⟨rfl, rfl, rfl, rfl, rfl, rfl, rfl, ?_, ?_, rfl⟩
  · refine List.filter_eq_nil_iff.mpr fun c hc => ?_
    have h2 := (List.mem_filter.mp hc).2
    simp only [bne_iff_ne, ne_eq] at h2
    simp [h2]
  · intro c hc hne
    exact List.mem_filter.mpr ⟨hc, by simpa using hne⟩

/-- C9 witness: deleting category 1 of the fixture store leaves its menu
item (which references category 1) in place, keeps category 2, and keeps
no category with id 1. -/
theorem deleteCategory_only_category_witness :
    (MenuService.deleteCategory storeFix 1).menu_items = storeFix.menu_items ∧
    (⟨2, 1, "Drinks", 1⟩ : Category) ∈ (MenuService.deleteCategory storeFix 1).categories ∧
    (MenuService.deleteCategory storeFix 1).categories.filter
      (fun c => c.id == 1) = [] ∧
    (MenuService.deleteCategory storeFix 1).menu_items.filter
        (fun m => m.category_id == 1) =
      storeFix.menu_items.filter (fun m => m.category_id == 1) := by
  obtain ⟨h1, _, _, _, _, _, _, h8, h9, h10⟩ := deleteCategory_only_category storeFix 1
  exact ⟨h1, h9 ⟨2, 1, "Drinks", 1⟩ (by decide) (by decide), h8, h10⟩

/-! ### C6: deleting an absent order -/

/-- C6: for every order id absent from the store (in particular an already
deleted one), `deleteOrder` issues only the initial fetch, fails with the
not-found error — no silent success and no other error kind — and deletes
nothing: the store is returned unchanged. -/
theorem deleteOrder_absent_notFound (s : Store) (orderId : Nat)
    (habs : s.orders.filter (fun o => o.id == orderId) = []) :
    OrdersService.deleteOrder s orderId =
      ([DbEv.fetchOrder orderId], s, Except.error Err.notFound) := by
  unfold OrdersService.deleteOrder
  rw [habs]
  rfl

/-- C6 witness: order id 99 does not exist in the fixture store, and
deleting it yields exactly the not-found error with the store intact. -/
theorem deleteOrder_absent_notFound_witness :
    storeFix.orders.filter (fun o => o.id == 99) = [] ∧
    OrdersService.deleteOrder storeFix 99 =
      ([DbEv.fetchOrder 99], storeFix, Except.error Err.notFound) :=
  ⟨by decide, deleteOrder_absent_notFound storeFix 99 (by decide)⟩

/-! ### C3: add-on group deletion order -/

/-- C3: for every add-on group id, `deleteAddonGroup` issues the add-on
delete strictly before the group-row delete; after the first phase every
add-on of the group is gone while the `addon_groups` table is still
untouched (so all owned add-ons — e.g. all 3 of a 3-add-on group — are
removed before the group row disappears); afterwards neither the group nor
any of its add-ons exists, a `.single()` query for the group yields the
not-found error, and unrelated groups survive. -/
theorem deleteAddonGroup_addons_before_group (s : Store) (groupId n : Nat)
    (hn : (s.addons.filter (fun a => a.addon_group_id == groupId)).length = n) :
    (AddonService.deleteAddonGroup s groupId).1 =
      [DbEv.deleteAddonsOfGroup groupId, DbEv.deleteGroupRow groupId] ∧
    (AddonService.deleteAddonGroupPhase1 s groupId).addon_groups = s.addon_groups ∧
    (AddonService.deleteAddonGroupPhase1 s groupId).addons.filter
      (fun a => a.addon_group_id == groupId) = [] ∧
    (AddonService.deleteAddonGroupPhase1 s groupId).addons.length = s.addons.length - n ∧
    (AddonService.deleteAddonGroup s groupId).2.addons =
      (AddonService.deleteAddonGroupPhase1 s groupId).addons ∧
    (AddonService.deleteAddonGroup s groupId).2.addons.filter
      (fun a => a.addon_group_id == groupId) = [] ∧
    selectSingle ((AddonService.deleteAddonGroup s groupId).2.addon_groups.filter
      (fun g => g.id == groupId)) = Except.error Err.notFound ∧
    (∀ g ∈ s.addon_groups, g.id ≠ groupId →
      g ∈ (AddonService.deleteAddonGroup s groupId).2.addon_groups) := by
  have hfil : (s.addons.filter (fun a => a.addon_group_id != groupId)).filter
      (fun a => a.addon_group_id == groupId) = [] := by
    refine List.filter_eq_nil_iff.mpr fun a ha => ?_
    have h2 := (List.mem_filter.mp ha).2
    simp only [bne_iff_ne, ne_eq] at h2
    simp [h2]
  have hgfil : (s.addon_groups.filter (fun g => g.id != groupId)).filter
      (fun g => g.id == groupId) = [] := by
    refine List.filter_eq_nil_iff.mpr fun g hg => ?_
    have h2 := (List.mem_filter.mp hg).2
    simp only [bne_iff_ne, ne_eq] at h2
    simp [h2]
  have hlen : (s.addons.filter (fun a => a.addon_group_id == groupId)).length +
      (s.addons.filter (fun a => a.addon_group_id != groupId)).length =
      s.addons.length := by
    have := length_filter_add_length_filter_not
      (fun a : Addon => a.addon_group_id == groupId) s.addons
    simpa [bne] using this
  refine ⟨rfl, rfl, hfil, ?_, rfl, hfil, ?_, ?_⟩
  · show (s.addons.filter (fun a => a.addon_group_id != groupId)).length =
      s.addons.length - n
    omega
  · show selectSingle ((s.addon_groups.filter (fun g => g.id != groupId)).filter
      (fun g => g.id == groupId)) = Except.error Err.notFound
    rw [hgfil]
    rfl
  · intro g hg hne
    exact List.mem_filter.mpr ⟨hg, by simpa using hne⟩

/-- C3 witness (Scenario C): group 7 of the fixture store owns exactly 3
add-ons; deleting it issues the add-on delete first, removes all 3 add-ons
(4 add-on rows shrink to 1) while the group table is still intact after
phase 1, and afterwards querying group 7 yields the not-found error while
group 8 survives. -/
theorem deleteAddonGroup_addons_before_group_witness :
    (storeFix.addons.filter (fun a => a.addon_group_id == 7)).length = 3 ∧
    (AddonService.deleteAddonGroup storeFix 7).1 =
      [DbEv.deleteAddonsOfGroup 7, DbEv.deleteGroupRow 7] ∧
    (AddonService.deleteAddonGroupPhase1 storeFix 7).addon_groups = storeFix.addon_groups ∧
    (AddonService.deleteAddonGroupPhase1 storeFix 7).addons.length = 4 - 3 ∧
    (AddonService.deleteAddonGroup storeFix 7).2.addons.filter
      (fun a => a.addon_group_id == 7) = [] ∧
    selectSingle ((AddonService.deleteAddonGroup storeFix 7).2.addon_groups.filter
      (fun g => g.id == 7)) = Except.error Err.notFound ∧
    (⟨8, 1, "Toppings"⟩ : AddonGroup) ∈ (AddonService.deleteAddonGroup storeFix 7).2.addon_groups := by
  obtain ⟨h1, h2, h3, h4, _, h6, h7, h8⟩ :=
    deleteAddonGroup_addons_before_group storeFix 7 3 (by decide)
  exact ⟨by decide, h1, h2, h4, h6, h7, h8 ⟨8, 1, "Toppings"⟩ (by decide) (by decide)⟩

/-! ### C8: order status update is an unconditional field write -/

/-- C8: for every existing order id and arbitrary status string (including
transitions out of terminal states — no transition legality is checked),
`updateOrderStatus` rewrites the matching row's status field, changes
nothing else in the store, and returns the updated row; for an absent
order id it leaves the store unchanged and fails with the not-found
error. -/
theorem updateOrderStatus_unconditional (s : Store) (orderId : Nat) (status : String) :
    (∀ o, s.orders.filter (fun r => r.id == orderId) = [o] →
      OrdersService.updateOrderStatus s orderId status =
        ({ s with orders := s.orders.map (fun r =>
            if r.id == orderId then { r with status := status } else r) },
         Except.ok { o with status := status })) ∧
    (s.orders.filter (fun r => r.id == orderId) = [] →
      OrdersService.updateOrderStatus s orderId status = (s, Except.error Err.notFound)) := by
  have hid : ∀ r : Order,
      ((if r.id == orderId then { r with status := status } else r).id == orderId) =
        (r.id == orderId) := by
    intro r
    by_cases h : (r.id == orderId) = true
    · rw [if_pos h]
    · rw [if_neg h]
  constructor
  · intro o ho
    have hcomm := filter_map_comm
      (f := fun r : Order => if r.id == orderId then { r with status := status } else r)
      (p := fun r : Order => r.id == orderId) hid s.orders
    have homem : o ∈ s.orders.filter (fun r => r.id == orderId) := by
      rw [ho]; exact List.mem_singleton_self o
    have hcond := (List.mem_filter.mp homem).2
    simp only [OrdersService.updateOrderStatus]
    rw [hcomm, ho, List.map_cons, List.map_nil, if_pos hcond]
    rfl
  · intro ho
    have hall := List.filter_eq_nil_iff.mp ho
    have hmap : s.orders.map (fun r =>
        if r.id == orderId then { r with status := status } else r) = s.orders :=
      map_if_eq_self fun a ha => by
        have h := hall a ha
        revert h
        cases a.id == orderId <;> simp
    simp only [OrdersService.updateOrderStatus]
    rw [hmap, ho]
    rfl

/-- C8 witness: order 30 of the fixture store has the terminal status
"completed"; updating it to the arbitrary string "weird-status" succeeds
unconditionally and returns the rewritten row, while updating the absent
id 99 fails with the not-found error and leaves the store unchanged. -/
theorem updateOrderStatus_unconditional_witness :
    OrdersService.updateOrderStatus storeFix 30 "weird-status" =
      ({ storeFix with orders := storeFix.orders.map (fun r =>
          if r.id == 30 then { r with status := "weird-status" } else r) },
       Except.ok ⟨30, 1, some 2, "dine_in", "", "weird-status", 25, "ORD123"⟩) ∧
    OrdersService.updateOrderStatus storeFix 99 "weird-status" =
      (storeFix, Except.error Err.notFound) := by
  have h30 := updateOrderStatus_unconditional storeFix 30 "weird-status"
  have h99 := updateOrderStatus_unconditional storeFix 99 "weird-status"
  exact ⟨h30.1 ⟨30, 1, some 2, "dine_in", "", "completed", 25, "ORD123"⟩ (by decide),
         h99.2 (by decide)⟩

/-! ### C5: add-on-group round-trip on a variant -/

/-- C5: for every variant present in the store (with a unique id match)
and every pair of group ids, `updateVariantAddonGroups(v, [g1, g2])`
followed by `getVariantAddonGroups(v)` reads back exactly the written
list, so the resulting set of group ids equals {g1, g2} regardless of
order. -/
theorem updateVariantAddonGroups_roundTrip (s : Store) (variantId g1 g2 : Nat)
    (now : String) (v : Variant)
    (hv : s.menu_item_variants.filter (fun x => x.id == variantId) = [v]) :
    ∃ refs, MenuService.getVariantAddonGroups
        (MenuService.updateVariantAddonGroups s variantId [g1, g2] now) variantId =
          Except.ok refs ∧
      refs.map (fun r => r.addon_group_id) = [g1, g2] ∧
      (refs.map (fun r => r.addon_group_id)).toFinset = ({g1, g2} : Finset Nat) := by
  have hid : ∀ x : Variant,
      ((if x.id == variantId then
          { x with addon_groups := [g1, g2], updated_at := now } else x).id == variantId) =
        (x.id == variantId) := by
    intro x
    by_cases h : (x.id == variantId) = true
    · rw [if_pos h]
    · rw [if_neg h]
  have homem : v ∈ s.menu_item_variants.filter (fun x => x.id == variantId) := by
    rw [hv]; exact List.mem_singleton_self v
  have hcond := (List.mem_filter.mp homem).2
  have hcomm := filter_map_comm
    (f := fun x : Variant =>
      if x.id == variantId then { x with addon_groups := [g1, g2], updated_at := now } else x)
    (p := fun x : Variant => x.id == variantId) hid s.menu_item_variants
  refine ⟨[⟨g1⟩, ⟨g2⟩], ?_, rfl, by simp⟩
  simp only [MenuService.getVariantAddonGroups, MenuService.getVariantAddonGroupsF,
    MenuService.updateVariantAddonGroups, if_neg (by simp : ¬False)]
  rw [show (fun v : Variant => v.id == variantId) = (fun x : Variant => x.id == variantId)
    from rfl]
  rw [hcomm, hv, List.map_cons, List.map_nil, if_pos hcond]
  rfl

/-- C5 witness: writing the group list [8, 7] to variant 4 of the fixture
store and reading it back yields the refs for [8, 7], whose id set is
{8, 7}. -/
theorem updateVariantAddonGroups_roundTrip_witness :
    storeFix.menu_item_variants.filter (fun x => x.id == 4) =
      [⟨4, 3, "Large", 2, "", 0, [7], none, ""⟩] ∧
    ∃ refs, MenuService.getVariantAddonGroups
        (MenuService.updateVariantAddonGroups storeFix 4 [8, 7] "t1") 4 =
          Except.ok refs ∧
      refs.map (fun r => r.addon_group_id) = [8, 7] ∧
      (refs.map (fun r => r.addon_group_id)).toFinset = ({8, 7} : Finset Nat) :=
  ⟨by decide,
   updateVariantAddonGroups_roundTrip storeFix 4 8 7 "t1"
     ⟨4, 3, "Large", 2, "", 0, [7], none, ""⟩ (by decide)⟩

/-! ### C10: creating an order with an empty or absent item list -/

/-- C10: `createOrder` with an absent or empty `order_items` list does not
fail (in particular not with a validation failure): it inserts only the
order row, skips the order-item write entirely — the `order_items` table
is untouched and the item-write fault injection is never even consulted —
and returns the created order, which then owns zero order items. -/
theorem createOrder_emptyItems_ok (s : Store) (d : OrdersService.OrderData)
    (orderNumber : String) (itemsFail : Option String)
    (hempty : d.order_items = none ∨ d.order_items = some []) :
    OrdersService.createOrder s d orderNumber none itemsFail =
      ({ s with
          orders := s.orders ++ [⟨s.nextId, d.restaurant_id, d.table_id,
            d.order_type, d.customer_notes, d.status, d.total_amount, orderNumber⟩],
          nextId := s.nextId + 1 },
       Except.ok ⟨s.nextId, d.restaurant_id, d.table_id, d.order_type,
         d.customer_notes, d.status, d.total_amount, orderNumber⟩) := by
  rcases hempty with h | h <;> simp [OrdersService.createOrder, h]

/-- C10 witness: creating an order against the fixture store with a
present-but-empty item list and with no item list at all both succeed,
append only the order row (id 40), and leave `order_items` unchanged. -/
theorem createOrder_emptyItems_ok_witness :
    OrdersService.createOrder storeFix orderDataEmptyItems "ORD8" none none =
      ({ storeFix with
          orders := storeFix.orders ++ [⟨40, 1, some 2, "dine_in", "", "pending", 10, "ORD8"⟩],
          nextId := 41 },
       Except.ok ⟨40, 1, some 2, "dine_in", "", "pending", 10, "ORD8"⟩) ∧
    OrdersService.createOrder storeFix orderDataNoItems "ORD8" none none =
      ({ storeFix with
          orders := storeFix.orders ++ [⟨40, 1, some 2, "dine_in", "", "pending", 10, "ORD8"⟩],
          nextId := 41 },
       Except.ok ⟨40, 1, some 2, "dine_in", "", "pending", 10, "ORD8"⟩) ∧
    (OrdersService.createOrder storeFix orderDataEmptyItems "ORD8" none none).1.order_items =
      storeFix.order_items :=
  ⟨createOrder_emptyItems_ok storeFix orderDataEmptyItems "ORD8" none (Or.inr rfl),
   createOrder_emptyItems_ok storeFix orderDataNoItems "ORD8" none (Or.inl rfl),
   by decide⟩

/-! ### C2: item-write failure after a successful order insert -/

/-- C2 counterexample: against the fixture store, forcing the order-item
batch write to fail makes `createOrder` fail with the raw store error
object (`storeErr "boom"`), NOT with a distinct
PartialOrderCreation-style error referencing the persisted order id 40 —
even though the order row with id 40 was indeed persisted and kept. -/
theorem createOrder_itemFailure_raw_error_cex :
    (OrdersService.createOrder storeFix orderDataOneItem "ORD9" none (some "boom")).2 =
      Except.error (Err.storeErr "boom") ∧
    (OrdersService.createOrder storeFix orderDataOneItem "ORD9" none (some "boom")).2 ≠
      Except.error (Err.orderCreationIncomplete 40) ∧
    (OrdersService.createOrder storeFix orderDataOneItem "ORD9" none (some "boom")).1.orders =
      storeFix.orders ++ [⟨40, 1, some 2, "dine_in", "", "pending", 10, "ORD9"⟩] := by
  decide

/-- C2 (amended): when the order-item batch write fails after the order
row insert succeeded, `createOrder` surfaces the item-write store error
as-is (the failure is not masked as success), and the already-inserted
order row is NOT automatically removed: the resulting store still contains
it, with no order-item rows written and no compensation performed. -/
theorem createOrder_itemFailure_keeps_order (s : Store) (d : OrdersService.OrderData)
    (orderNumber msg : String) (items : List OrdersService.OrderItemSpec)
    (hitems : d.order_items = some items) (hne : items ≠ []) :
    OrdersService.createOrder s d orderNumber none (some msg) =
      ({ s with
          orders := s.orders ++ [⟨s.nextId, d.restaurant_id, d.table_id,
            d.order_type, d.customer_notes, d.status, d.total_amount, orderNumber⟩],
          nextId := s.nextId + 1 },
       Except.error (Err.storeErr msg)) := by
  have hpos : items.length > 0 := List.length_pos.mpr hne
  simp [OrdersService.createOrder, hitems, hpos]

/-- C2 witness for the amended claim: the concrete run of the
counterexample input, via the general theorem. -/
theorem createOrder_itemFailure_keeps_order_witness :
    OrdersService.createOrder storeFix orderDataOneItem "ORD9" none (some "boom") =
      ({ storeFix with
          orders := storeFix.orders ++ [⟨40, 1, some 2, "dine_in", "", "pending", 10, "ORD9"⟩],
          nextId := 41 },
       Except.error (Err.storeErr "boom")) :=
  createOrder_itemFailure_keeps_order storeFix orderDataOneItem "ORD9" "boom"
    [⟨3, 1, 10, ""⟩] rfl (by decide)

/-! ### C1: ordered cascading deletion of an order -/

/-- C1: for every existing order id (here: matched by exactly one order
row) owning at least one order item, `deleteOrder` issues exactly, and in
this order: the order fetch, the order-item-id fetch, the delete of every
order-item-add-on row referencing those item ids, the delete of the
order's order-item rows, and the delete of the order row; it succeeds
returning the fetched order, and the resulting store has exactly those
rows removed and everything else intact. -/
theorem deleteOrder_phases (s : Store) (orderId : Nat) (order : Order)
    (hord : s.orders.filter (fun o => o.id == orderId) = [order])
    (hne : s.order_items.filter (fun it => it.order_id == orderId) ≠ []) :
    OrdersService.deleteOrder s orderId =
      ([DbEv.fetchOrder orderId, DbEv.fetchOrderItems orderId,
        DbEv.deleteOrderItemAddons
          ((s.order_items.filter (fun it => it.order_id == orderId)).map (fun it => it.id)),
        DbEv.deleteOrderItems orderId, DbEv.deleteOrderRow orderId],
       { s with
          order_item_addons := s.order_item_addons.filter (fun a =>
            !(((s.order_items.filter (fun it => it.order_id == orderId)).map
                (fun it => it.id)).contains a.order_item_id)),
          order_items := s.order_items.filter (fun it => it.order_id != orderId),
          orders := s.orders.filter (fun o => o.id != orderId) },
       Except.ok order) := by
  have hpos : (s.order_items.filter (fun it => it.order_id == orderId)).length > 0 :=
    List.length_pos.mpr hne
  simp only [OrdersService.deleteOrder, hord]
  rw [if_pos hpos]
  rfl

/-- C1 witness (Scenario A): the fixture order 30 owns 2 order items of
which the first carries 1 add-on; `deleteOrder` runs the five phases in
order and removes exactly 1 order-item-add-on row, 2 order-item rows, and
1 order row. -/
theorem deleteOrder_phases_witness :
    OrdersService.deleteOrder storeFix 30 =
      ([DbEv.fetchOrder 30, DbEv.fetchOrderItems 30, DbEv.deleteOrderItemAddons [31, 32],
        DbEv.deleteOrderItems 30, DbEv.deleteOrderRow 30],
       { storeFix with order_item_addons := [], order_items := [], orders := [] },
       Except.ok ⟨30, 1, some 2, "dine_in", "", "completed", 25, "ORD123"⟩) ∧
    storeFix.order_item_addons.length -
      (OrdersService.deleteOrder storeFix 30).2.1.order_item_addons.length = 1 ∧
    storeFix.order_items.length -
      (OrdersService.deleteOrder storeFix 30).2.1.order_items.length = 2 ∧
    storeFix.orders.length - (OrdersService.deleteOrder storeFix 30).2.1.orders.length = 1 := by
  refine ⟨?_, by decide, by decide, by decide⟩
  have h := deleteOrder_phases storeFix 30
    ⟨30, 1, some 2, "dine_in", "", "completed", 25, "ORD123"⟩ (by decide) (by decide)
  rw [h]
  decide

/-! ### Lemmas about the variant hydration machinery -/

theorem filter_key_append {α : Type} (key : α → Nat) (x : Nat) (l rows : List α)
    (hrows : ∀ r ∈ rows, key r = x) :
    ((l.filter (fun a => key a != x)) ++ rows).filter (fun a => key a == x) = rows := by
  rw [List.filter_append]
  have h1 : (l.filter (fun a => key a != x)).filter (fun a => key a == x) = [] := by
    refine List.filter_eq_nil_iff.mpr fun a ha => ?_
    have h2 := (List.mem_filter.mp ha).2
    simp only [bne_iff_ne, ne_eq] at h2
    simp [h2]
  have h2 : rows.filter (fun a => key a == x) = rows :=
    List.filter_eq_self.mpr fun r hr => by simp [hrows r hr]
  rw [h1, h2, List.nil_append]

theorem map_proj_mapWithIndex {α β γ : Type} {f : Nat → α → β} {g : β → γ} {h : α → γ}
    (hgf : ∀ j a, g (f j a) = h a) :
    ∀ (i : Nat) (l : List α), (mapWithIndex f i l).map g = l.map h := by
  intro i l
  induction l generalizing i with
  | nil => rfl
  | cons a as ih => simp [mapWithIndex, hgf, ih]

/-- Hydrating any in-memory copy of a stored variant row (possibly with a
stale `addon_groups` field) re-reads the row by id: a failing resolution
call yields the empty group list, a successful one the stored list. -/
theorem hydrateVariant_lookup (faults : Nat → Bool) (s : Store) (v : Variant)
    (x : List Nat)
    (hsel : s.menu_item_variants.filter (fun w => w.id == v.id) = [v]) :
    MenuService.hydrateVariant faults s { v with addon_groups := x } =
      if faults v.id then { v with addon_groups := [] } else v := by
  unfold MenuService.hydrateVariant MenuService.getVariantAddonGroupsF
  have hid : ({ v with addon_groups := x } : Variant).id = v.id := rfl
  rw [hid]
  by_cases h : faults v.id = true
  · simp [h]
  · rw [if_neg h, if_neg (by simp [h])]
    rw [hsel]
    have hcomp : ((fun r : AddonGroupRef => r.addon_group_id) ∘
        fun groupId : Nat => (⟨groupId⟩ : AddonGroupRef)) = fun a : Nat => a := rfl
    simp [selectSingle, List.map_map, hcomp, List.map_id']

theorem hydrateVariant_of_nodup (faults : Nat → Bool) (s : Store) (v : Variant)
    (hnodup : (s.menu_item_variants.map (fun w => w.id)).Nodup)
    (hv : v ∈ s.menu_item_variants) :
    MenuService.hydrateVariant faults s v =
      if faults v.id then { v with addon_groups := [] } else v :=
  hydrateVariant_lookup faults s v v.addon_groups (filter_key_of_nodup hnodup hv)

/-! ### Lemmas about the rows built by `saveMenuItemVariants` -/

theorem variantRows_length (m : Nat) (u : Option Nat) (b : Nat)
    (vs : List MenuService.VariantSpec) :
    (MenuService.variantRows m u b vs).length = vs.length :=
  length_mapWithIndex _ 0 vs

theorem variantRows_itemId (m : Nat) (u : Option Nat) (b : Nat)
    (vs : List MenuService.VariantSpec) :
    ∀ r ∈ MenuService.variantRows m u b vs, r.menu_item_id = m := fun r hr =>
  mapWithIndex_forall (P := fun x : Variant => x.menu_item_id = m)
    (fun _ _ => rfl) 0 vs r hr

theorem variantRows_id_ge (m : Nat) (u : Option Nat) (b : Nat)
    (vs : List MenuService.VariantSpec) :
    ∀ r ∈ MenuService.variantRows m u b vs, b ≤ r.id := fun r hr =>
  mapWithIndex_forall (P := fun x : Variant => b ≤ x.id)
    (fun j _ => Nat.le_add_right b j) 0 vs r hr

theorem variantRows_map_id (m : Nat) (u : Option Nat) (b : Nat)
    (vs : List MenuService.VariantSpec) :
    (MenuService.variantRows m u b vs).map (fun v => v.id) =
      List.range' b vs.length := by
  unfold MenuService.variantRows
  refine map_key_mapWithIndex ?_ 0 vs
  intro j a
  rfl

theorem variantRows_map_display (m : Nat) (u : Option Nat) (b : Nat)
    (vs : List MenuService.VariantSpec) :
    (MenuService.variantRows m u b vs).map (fun v => v.display_order) =
      List.range' 0 vs.length := by
  unfold MenuService.variantRows
  refine map_key_mapWithIndex ?_ 0 vs
  intro j a
  exact (Nat.zero_add j).symm

theorem variantRows_sorted (m : Nat) (u : Option Nat) (b : Nat)
    (vs : List MenuService.VariantSpec) :
    isSortedByKey (fun v => v.display_order) (MenuService.variantRows m u b vs) = true :=
  isSortedByKey_of_map_range' (variantRows_map_display m u b vs)

theorem variantRows_nodup_id (m : Nat) (u : Option Nat) (b : Nat)
    (vs : List MenuService.VariantSpec) :
    ((MenuService.variantRows m u b vs).map (fun v => v.id)).Nodup := by
  rw [variantRows_map_id]
  exact List.nodup_range' ..

theorem variantRows_map_fields (m : Nat) (u : Option Nat) (b : Nat)
    (vs : List MenuService.VariantSpec) :
    (MenuService.variantRows m u b vs).map
        (fun v => (v.name, v.additional_price, v.image_url)) =
      vs.map (fun v => (v.name, v.additional_price, v.image_url)) := by
  unfold MenuService.variantRows
  refine map_proj_mapWithIndex ?_ 0 vs
  intro j a
  rfl

/-! ### C4: replace-all-children semantics of saveMenuItemVariants -/

/-- C4: for every item and ordered variant list of length N (over a store
whose existing row ids respect the id counter), `saveMenuItemVariants`
succeeds, first issues the delete of every existing variant row of the
item and then the insert of exactly the N supplied variants, and a
subsequent `getMenuItemVariants` for the item returns exactly those N
rows, whose display orders are 0,...,N-1 — each variant's display order
equals its 0-indexed position in the supplied list, whose fields it
carries. -/
theorem saveMenuItemVariants_replace_all (s : Store) (menuItemId : Nat)
    (userId : Option Nat) (vs : List MenuService.VariantSpec)
    (hwf : ∀ v ∈ s.menu_item_variants, v.id < s.nextId) :
    (MenuService.saveMenuItemVariants s menuItemId userId vs).2.2 = Except.ok true ∧
    (MenuService.saveMenuItemVariants s menuItemId userId vs).1 =
      (if vs.length > 0 then
        [DbEv.deleteVariantsOfItem menuItemId,
         DbEv.insertVariantRows (MenuService.variantRows menuItemId userId s.nextId vs)]
      else [DbEv.deleteVariantsOfItem menuItemId]) ∧
    MenuService.getMenuItemVariants
        (MenuService.saveMenuItemVariants s menuItemId userId vs).2.1 menuItemId =
      Except.ok (MenuService.variantRows menuItemId userId s.nextId vs) ∧
    (MenuService.variantRows menuItemId userId s.nextId vs).length = vs.length ∧
    (MenuService.variantRows menuItemId userId s.nextId vs).map
      (fun v => v.display_order) = List.range' 0 vs.length ∧
    (MenuService.variantRows menuItemId userId s.nextId vs).map
        (fun v => (v.name, v.additional_price, v.image_url)) =
      vs.map (fun v => (v.name, v.additional_price, v.image_url)) := by
  by_cases hl : vs.length > 0
  case pos =>
    have hsave : MenuService.saveMenuItemVariants s menuItemId userId vs =
        ([DbEv.deleteVariantsOfItem menuItemId,
          DbEv.insertVariantRows (MenuService.variantRows menuItemId userId s.nextId vs)],
         { s with
            menu_item_variants :=
              s.menu_item_variants.filter (fun v => v.menu_item_id != menuItemId) ++
                MenuService.variantRows menuItemId userId s.nextId vs,
            nextId := s.nextId + vs.length },
         Except.ok true) := by
      simp [MenuService.saveMenuItemVariants, hl]
    refine ⟨by rw [hsave], by rw [hsave]; simp [hl], ?_,
      variantRows_length menuItemId userId s.nextId vs,
      variantRows_map_display menuItemId userId s.nextId vs,
      variantRows_map_fields menuItemId userId s.nextId vs⟩
    rw [hsave]
    show MenuService.getMenuItemVariants
        { s with
            menu_item_variants :=
              s.menu_item_variants.filter (fun v => v.menu_item_id != menuItemId) ++
                MenuService.variantRows menuItemId userId s.nextId vs,
            nextId := s.nextId + vs.length } menuItemId =
      Except.ok (MenuService.variantRows menuItemId userId s.nextId vs)
    unfold MenuService.getMenuItemVariants MenuService.getMenuItemVariantsF
    have hfil : ((s.menu_item_variants.filter (fun w => w.menu_item_id != menuItemId)) ++
        MenuService.variantRows menuItemId userId s.nextId vs).filter
          (fun w => w.menu_item_id == menuItemId) =
        MenuService.variantRows menuItemId userId s.nextId vs :=
      filter_key_append (fun v : Variant => v.menu_item_id) menuItemId
        s.menu_item_variants (MenuService.variantRows menuItemId userId s.nextId vs)
        (variantRows_itemId menuItemId userId s.nextId vs)
    rw [hfil]
    rw [sortByKey_eq_self (variantRows_sorted menuItemId userId s.nextId vs)]
    refine congrArg Except.ok ?_
    have hmap : ∀ v ∈ MenuService.variantRows menuItemId userId s.nextId vs,
        MenuService.hydrateVariant (fun _ => false)
          { s with
              menu_item_variants :=
                s.menu_item_variants.filter (fun w => w.menu_item_id != menuItemId) ++
                  MenuService.variantRows menuItemId userId s.nextId vs,
              nextId := s.nextId + vs.length } v = (fun v : Variant => v) v := by
      intro v hv
      have hgev : s.nextId ≤ v.id := variantRows_id_ge menuItemId userId s.nextId vs v hv
      have hold : (s.menu_item_variants.filter (fun w => w.menu_item_id != menuItemId)).filter
          (fun w => w.id == v.id) = [] := by
        refine List.filter_eq_nil_iff.mpr fun a ha => ?_
        have hlt : a.id < s.nextId := hwf a (List.mem_filter.mp ha).1
        simp only [beq_iff_eq]
        omega
      have hsel : ({ s with
          menu_item_variants :=
            s.menu_item_variants.filter (fun w => w.menu_item_id != menuItemId) ++
              MenuService.variantRows menuItemId userId s.nextId vs,
          nextId := s.nextId + vs.length } : Store).menu_item_variants.filter
            (fun w => w.id == v.id) = [v] := by
        show ((s.menu_item_variants.filter (fun w => w.menu_item_id != menuItemId)) ++
          MenuService.variantRows menuItemId userId s.nextId vs).filter
            (fun w => w.id == v.id) = [v]
        rw [List.filter_append, hold, List.nil_append]
        exact filter_key_of_nodup (variantRows_nodup_id menuItemId userId s.nextId vs) hv
      have h1 := hydrateVariant_lookup (fun _ => false)
        { s with
            menu_item_variants :=
              s.menu_item_variants.filter (fun w => w.menu_item_id != menuItemId) ++
                MenuService.variantRows menuItemId userId s.nextId vs,
            nextId := s.nextId + vs.length } v v.addon_groups hsel
      simpa using h1
    rw [List.map_eq_map_iff.mpr hmap, List.map_id']
  case neg =>
    have hvs : vs = [] := List.length_eq_zero.mp (by omega)
    subst hvs
    refine ⟨rfl, rfl, ?_, rfl, rfl, rfl⟩
    show MenuService.getMenuItemVariants
        { s with
            menu_item_variants :=
              s.menu_item_variants.filter (fun v => v.menu_item_id != menuItemId) }
          menuItemId = Except.ok []
    unfold MenuService.getMenuItemVariants MenuService.getMenuItemVariantsF
    have hfil : (s.menu_item_variants.filter (fun w => w.menu_item_id != menuItemId)).filter
        (fun w => w.menu_item_id == menuItemId) = [] := by
      refine List.filter_eq_nil_iff.mpr fun a ha => ?_
      have h2 := (List.mem_filter.mp ha).2
      simp only [bne_iff_ne, ne_eq] at h2
      simp [h2]
    rw [hfil]
    rfl

/-- C4 witness: saving two variants for item 3 of the fixture store (which
already has two variant rows) succeeds, and the subsequent fetch returns
exactly the two new rows with display orders 0 and 1 matching their list
positions. -/
theorem saveMenuItemVariants_replace_all_witness :
    (MenuService.saveMenuItemVariants storeFix 3 (some 9)
      [⟨"Mini", 0, ""⟩, ⟨"Mega", 3, ""⟩]).2.2 = Except.ok true ∧
    MenuService.getMenuItemVariants
        (MenuService.saveMenuItemVariants storeFix 3 (some 9)
          [⟨"Mini", 0, ""⟩, ⟨"Mega", 3, ""⟩]).2.1 3 =
      Except.ok [⟨40, 3, "Mini", 0, "", 0, [], some 9, ""⟩,
                 ⟨41, 3, "Mega", 3, "", 1, [], some 9, ""⟩] ∧
    (MenuService.variantRows 3 (some 9) 40 [⟨"Mini", 0, ""⟩, ⟨"Mega", 3, ""⟩]).map
      (fun v => v.display_order) = [0, 1] := by
  have h := saveMenuItemVariants_replace_all storeFix 3 (some 9)
    [⟨"Mini", 0, ""⟩, ⟨"Mega", 3, ""⟩] (by decide)
  refine ⟨h.1, ?_, by decide⟩
  rw [h.2.2.1]
  decide

/-! ### C7: partial hydration under add-on-group resolution failures -/

/-- Characterization of the `getMenuItems` loop body over any item list
(for a store with unique variant ids): it always succeeds, pairing every
item with its sorted variants, where a variant whose group-resolution call
fails gets the empty group list and every other variant keeps its stored
groups. -/
theorem hydrateItems_ok (faults : Nat → Bool) (s : Store)
    (hnodup : (s.menu_item_variants.map (fun w => w.id)).Nodup) :
    ∀ items : List MenuItem,
      MenuService.hydrateItems faults s items =
        Except.ok (items.map (fun it =>
          (it, (sortByKey (fun v => v.display_order)
              (s.menu_item_variants.filter (fun v => v.menu_item_id == it.id))).map
            (fun v => if faults v.id then { v with addon_groups := [] } else v)))) := by
  have hyd2 : ∀ v ∈ s.menu_item_variants,
      MenuService.hydrateVariant faults s (MenuService.hydrateVariant faults s v) =
        if faults v.id then { v with addon_groups := [] } else v := by
    intro v hv
    have hsel := filter_key_of_nodup hnodup hv
    rw [hydrateVariant_of_nodup faults s v hnodup hv]
    by_cases h : faults v.id = true
    · rw [if_pos h, hydrateVariant_lookup faults s v [] hsel, if_pos h]
    · rw [if_neg h, hydrateVariant_of_nodup faults s v hnodup hv, if_neg h]
  intro items
  induction items with
  | nil => rfl
  | cons it rest ih =>
    have hstep : MenuService.hydrateItems faults s (it :: rest) =
        match MenuService.hydrateItems faults s rest with
        | .error e => .error e
        | .ok rest2 => .ok ((it,
            ((sortByKey (fun v => v.display_order)
                (s.menu_item_variants.filter (fun v => v.menu_item_id == it.id))).map
              (MenuService.hydrateVariant faults s)).map
                (MenuService.hydrateVariant faults s)) :: rest2) := rfl
    have hXY : ((sortByKey (fun v => v.display_order)
        (s.menu_item_variants.filter (fun v => v.menu_item_id == it.id))).map
          (MenuService.hydrateVariant faults s)).map (MenuService.hydrateVariant faults s) =
        (sortByKey (fun v => v.display_order)
          (s.menu_item_variants.filter (fun v => v.menu_item_id == it.id))).map
            (fun v => if faults v.id then { v with addon_groups := [] } else v) := by
      rw [List.map_map]
      refine List.map_eq_map_iff.mpr fun v hv => ?_
      have hv1 : v ∈ s.menu_item_variants :=
        (List.mem_filter.mp ((mem_sortByKey (fun v => v.display_order) v _).mp hv)).1
      exact hyd2 v hv1
    rw [hstep, ih, hXY]
    rfl

/-- C7: against any store with unique variant ids, if the add-on-group
resolution call fails for some set of variants, the catalog hydration
(`getMenuItems`, and the variant fetch it builds on) still succeeds: every
item and every variant is returned, a failing variant's add-on groups are
set to the empty list, and every other variant keeps its stored add-on
groups — the per-variant error is swallowed, not propagated. -/
theorem getMenuItems_partial_hydration (faults : Nat → Bool) (s : Store)
    (categoryId : Nat)
    (hnodup : (s.menu_item_variants.map (fun w => w.id)).Nodup) :
    MenuService.getMenuItems faults s categoryId =
      Except.ok ((sortByKeyDesc (fun it => it.created_at)
          (s.menu_items.filter (fun it => it.category_id == categoryId))).map (fun it =>
        (it, (sortByKey (fun v => v.display_order)
            (s.menu_item_variants.filter (fun v => v.menu_item_id == it.id))).map
          (fun v => if faults v.id then { v with addon_groups := [] } else v)))) ∧
    ∀ menuItemId, MenuService.getMenuItemVariantsF faults s menuItemId =
      Except.ok ((sortByKey (fun v => v.display_order)
          (s.menu_item_variants.filter (fun v => v.menu_item_id == menuItemId))).map
        (fun v => if faults v.id then { v with addon_groups := [] } else v)) := by
  constructor
  · exact hydrateItems_ok faults s hnodup _
  · intro menuItemId
    show Except.ok ((sortByKey (fun v => v.display_order)
        (s.menu_item_variants.filter (fun v => v.menu_item_id == menuItemId))).map
          (MenuService.hydrateVariant faults s)) = _
    refine congrArg Except.ok ?_
    refine List.map_eq_map_iff.mpr fun v hv => ?_
    have hv1 : v ∈ s.menu_item_variants :=
      (List.mem_filter.mp ((mem_sortByKey (fun v => v.display_order) v _).mp hv)).1
    exact hydrateVariant_of_nodup faults s v hnodup hv1

/-- C7 witness: making the group-resolution call fail for variant 4 of the
fixture store, `getMenuItems` for category 1 still succeeds and returns
item 3 with both variants: variant 4 with its add-on groups emptied,
variant 5 fully hydrated with its stored groups [7, 8]. -/
theorem getMenuItems_partial_hydration_witness :
    MenuService.getMenuItems (fun vid => vid == 4) storeFix 1 =
      Except.ok [(⟨3, 1, "Burger", 10, true, 100⟩,
        [⟨4, 3, "Large", 2, "", 0, [], none, ""⟩,
         ⟨5, 3, "Small", 0, "", 1, [7, 8], none, ""⟩])] ∧
    MenuService.getMenuItemVariantsF (fun vid => vid == 4) storeFix 3 =
      Except.ok [⟨4, 3, "Large", 2, "", 0, [], none, ""⟩,
                 ⟨5, 3, "Small", 0, "", 1, [7, 8], none, ""⟩] := by
  have h := getMenuItems_partial_hydration (fun vid => vid == 4) storeFix 1 (by decide)
  constructor
  · rw [h.1]
    decide
  · rw [h.2 3]
    decide
